import Mathlib

/-!
Shallow embedding of the scale-to-zero controller (Rust sources under
scale-to-zero/ and scale-to-zero-ebpf/) and proofs about the claims of
its specification.

The kernel classifier is embedded as a pure function of the frame bytes
and the ServiceAvailability map; the userspace operations are embedded
as explicit state-passing functions over association lists standing for
the locked HashMaps.
-/

namespace ScaleToZero

/-- XDP action codes, from the Linux xdp_action enum re-exported by
aya_bpf::bindings. -/
def XDP_ABORTED : Nat := 0

/-- XDP drop action. -/
def XDP_DROP : Nat := 1

/-- XDP pass action. -/
def XDP_PASS : Nat := 2

/-- The wake-event record shared between kernel and userspace
(scale-to-zero-common PacketLog): an IPv4 address in host order and an
action (0 = observed-live, 1 = drop-triggered-wake). -/
structure PacketLog where
  ipv4_address : Nat
  action : Nat
deriving Repr, DecidableEq

/-- Size of the Ethernet II header (network_types EthHdr::LEN). -/
def ethHdrLen : Nat := 14

/-- Size of the fixed IPv4 header struct (network_types Ipv4Hdr). -/
def ipv4HdrLen : Nat := 20

/-- Bounds check of ptr_at in scale-to-zero-ebpf/src/main.rs lines 38-50:
reading size bytes at offset succeeds iff start + offset + size <= end,
i.e. offset + size <= frame length. -/
def ptrAtOk (frameLen offset size : Nat) : Bool :=
  decide (offset + size ≤ frameLen)

/-- Big-endian 16-bit read of two frame bytes (out-of-range reads as 0;
the classifier only reads after a successful bounds check). -/
def readU16be (frame : List Nat) (i : Nat) : Nat :=
  frame.getD i 0 * 256 + frame.getD (i + 1) 0

/-- Big-endian 32-bit read of four frame bytes; this is the host-order
value produced by u32::from_be on the raw network-order field. -/
def readU32be (frame : List Nat) (i : Nat) : Nat :=
  ((frame.getD i 0 * 256 + frame.getD (i + 1) 0) * 256
      + frame.getD (i + 2) 0) * 256 + frame.getD (i + 3) 0

/-- The EtherType field of an Ethernet II frame lives at bytes 12..13;
EtherType::Ipv4 compares equal iff those bytes are 0x08 0x00. -/
def etherTypeIsIpv4 (frame : List Nat) : Bool :=
  decide (readU16be frame 12 = 0x0800)

/-- SERVICE_LIST lookup (is_scalable_dst in scale-to-zero-ebpf main.rs):
the kernel ServiceAvailability table as a function from host-order IPv4
to the optional availability flag. -/
def is_scalable_dst (serviceList : Nat → Option Nat) (address : Nat) : Option Nat :=
  serviceList address

/-- try_xdp_scale_to_zero_fw (scale-to-zero-ebpf/src/main.rs lines 57-94):
parse the Ethernet header (bounds-checked), pass non-IPv4 frames, parse
the IPv4 header (bounds-checked), look the host-order destination up in
SERVICE_LIST and decide.  Returns the action together with the list of
wake events emitted to SCALE_REQUESTS; a failed bounds check is the Err
case. -/
def try_xdp_scale_to_zero_fw (serviceList : Nat → Option Nat) (frame : List Nat) :
    Except Unit (Nat × List PacketLog) :=
  if ptrAtOk frame.length 0 ethHdrLen then
    if etherTypeIsIpv4 frame then
      if ptrAtOk frame.length ethHdrLen ipv4HdrLen then
        let dst := readU32be frame (ethHdrLen + 16)
        match is_scalable_dst serviceList dst with
        | some value =>
          if value = 0 then Except.ok (XDP_DROP, [⟨dst, 1⟩])
          else Except.ok (XDP_PASS, [⟨dst, 0⟩])
        | none => Except.ok (XDP_PASS, [])
      else Except.error ()
    else Except.ok (XDP_PASS, [])
  else Except.error ()

/-- xdp_scale_to_zero_fw (scale-to-zero-ebpf/src/main.rs lines 30-36):
the Err case of the fallible body maps to XDP_ABORTED. -/
def xdp_scale_to_zero_fw (serviceList : Nat → Option Nat) (frame : List Nat) :
    Nat × List PacketLog :=
  match try_xdp_scale_to_zero_fw serviceList frame with
  | Except.ok ret => ret
  | Except.error _ => (XDP_ABORTED, [])

/-- A 34-byte IPv4 frame (14-byte Ethernet header with EtherType 0x0800,
20-byte IPv4 header) whose destination address bytes are 10.0.0.5. -/
def frame34 : List Nat :=
  [0, 0, 0, 0, 0, 0, 0, 0, 0, 0, 0, 0, 0x08, 0x00,
   0x45, 0, 0, 0, 0, 0, 0, 0, 0, 0, 0, 0, 0, 0, 0, 0,
   10, 0, 0, 5]

/-- Association-list lookup, standing for HashMap::get on the locked
userspace maps (WATCHED_SERVICES, LAST_CALLED) and for the aya map get. -/
def alookup {κ α : Type} [DecidableEq κ] : List (κ × α) → κ → Option α
  | [], _ => none
  | (k, v) :: rest, key => if k = key then some v else alookup rest key

/-- Association-list insert-or-replace, standing for HashMap::insert. -/
def ainsert {κ α : Type} [DecidableEq κ] : List (κ × α) → κ → α → List (κ × α)
  | [], key, val => [(key, val)]
  | (k, v) :: rest, key, val =>
    if k = key then (k, val) :: rest else (k, v) :: ainsert rest key val

/-- Association-list removal of a key, standing for HashMap::remove. -/
def aremove {κ α : Type} [DecidableEq κ] : List (κ × α) → κ → List (κ × α)
  | [], _ => []
  | (k, v) :: rest, key =>
    if k = key then aremove rest key else (k, v) :: aremove rest key

/-- The per-service record stored in WATCHED_SERVICES
(scale-to-zero/src/kubernetes/models.rs ServiceData).  The namespace
field is renamed ns because namespace is a Lean keyword. -/
structure ServiceData where
  scale_down_time : Int
  last_packet_time : Int
  kind : String
  name : String
  ns : String
  backend_available : Bool
deriving Repr, DecidableEq

/-- A merge patch submitted to the orchestrator API: workload kind,
workload name, and the replicas value written. -/
structure Patch where
  kind : String
  name : String
  replicas : Int
deriving Repr, DecidableEq

/-- How a scale_up call ends: duration_since error (rate-limiter entry
later than now), the rate-limited error, the panic of the unwrap on a
missing WATCHED_SERVICES record, or normal completion. -/
inductive ScaleUpOutcome where
  | timeError
  | rateLimited
  | panicked
  | ok
deriving Repr, DecidableEq

/-- Post-state of a scale_up call: the LAST_CALLED rate-limiter map, the
WATCHED_SERVICES registry, the patches submitted, and the outcome. -/
structure ScaleUpResult where
  lastCalled : List (String × Int)
  registry : List (String × ServiceData)
  patches : List Patch
  outcome : ScaleUpOutcome
deriving Repr, DecidableEq

/-- Body of scale_up after the rate-limit gate
(scale-to-zero/src/kubernetes/scaler.rs lines 84-122): clone the
registry record (unwrap panics when it is missing), set
backend_available on the local clone only — the source never writes the
clone back to WATCHED_SERVICES — and patch the workload replicas to 1.
The orchestrator client is assumed constructible; patch submission is
recorded in the patches list. -/
def scale_up_body (lastCalled : List (String × Int))
    (registry : List (String × ServiceData)) (service_ip : String) : ScaleUpResult :=
  match alookup registry service_ip with
  | none => ⟨lastCalled, registry, [], ScaleUpOutcome.panicked⟩
  | some svc =>
    let service := { svc with backend_available := true }
    let patches :=
      if service.kind = "deployment" then [⟨"deployment", service.name, 1⟩]
      else if service.kind = "statefulset" then [⟨"statefulset", service.name, 1⟩]
      else []
    ⟨lastCalled, registry, patches, ScaleUpOutcome.ok⟩

/-- scale_up (scale-to-zero/src/kubernetes/scaler.rs lines 71-122):
consult LAST_CALLED; now.duration_since(time) errs when time is later
than now; a duration below 5 seconds returns the rate-limited error;
otherwise LAST_CALLED is updated to now before the API call and the
body runs.  Time is modelled in whole seconds. -/
def scale_up (now : Int) (lastCalled : List (String × Int))
    (registry : List (String × ServiceData)) (service_ip : String) : ScaleUpResult :=
  match alookup lastCalled service_ip with
  | some time =>
    if now < time then ⟨lastCalled, registry, [], ScaleUpOutcome.timeError⟩
    else if now - time < 5 then ⟨lastCalled, registry, [], ScaleUpOutcome.rateLimited⟩
    else scale_up_body (ainsert lastCalled service_ip now) registry service_ip
  | none => scale_up_body (ainsert lastCalled service_ip now) registry service_ip

/-- Dotted-quad rendering of a host-order u32, as Ipv4Addr::from(u32)
followed by to_string: most significant byte is the first octet. -/
def ipv4ToString (ip : Nat) : String :=
  toString (ip / 16777216 % 256) ++ "." ++ toString (ip / 65536 % 256) ++ "."
    ++ toString (ip / 256 % 256) ++ "." ++ toString (ip % 256)

/-- Ipv4Addr::is_loopback: first octet equals 127. -/
def isLoopback (ip : Nat) : Bool :=
  decide (ip / 16777216 % 256 = 127)

/-- Post-state of one process_packet call: registry, rate limiter,
patches submitted, and whether the call panicked. -/
structure ProcessResult where
  registry : List (String × ServiceData)
  lastCalled : List (String × Int)
  patches : List Patch
  panicked : Bool
deriving Repr, DecidableEq

/-- The timestamp update of process_packet
(scale-to-zero/src/utils.rs lines 19-28): when the destination string
has a WATCHED_SERVICES record, set its last_packet_time to now;
otherwise leave the registry unchanged. -/
def touch_service (registry : List (String × ServiceData)) (key : String)
    (now : Int) : List (String × ServiceData) :=
  match alookup registry key with
  | some svc => ainsert registry key { svc with last_packet_time := now }
  | none => registry

/-- process_packet (scale-to-zero/src/utils.rs lines 13-41): drop
loopback destinations, refresh last_packet_time for a known record, and
on action 1 call scale_up; scale_up errors are logged (the rate-limited
class silently), but the unwrap inside scale_up panics the task when
the record is missing. -/
def process_packet (now : Int) (lastCalled : List (String × Int))
    (registry : List (String × ServiceData)) (packet_log : PacketLog) : ProcessResult :=
  let dist_addr := ipv4ToString packet_log.ipv4_address
  if isLoopback packet_log.ipv4_address then
    ⟨registry, lastCalled, [], false⟩
  else
    let registry1 := touch_service registry dist_addr now
    if packet_log.action = 1 then
      let r := scale_up now lastCalled registry1 dist_addr
      ⟨r.registry, r.lastCalled, r.patches,
        match r.outcome with
        | ScaleUpOutcome.panicked => true
        | _ => false⟩
    else
      ⟨registry1, lastCalled, [], false⟩

/-- Post-state of one pass of the scale_down loop body: registry,
patches submitted, and the error that aborted the pass, if any. -/
structure ScaleDownResult where
  registry : List (String × ServiceData)
  patches : List Patch
  err : Option String
deriving Repr, DecidableEq

/-- The per-key body of the scale_down loop
(scale-to-zero/src/kubernetes/scaler.rs lines 23-66), iterated over a
snapshot of the registry keys: clone the record (unwrap panics when
missing), and when the idle window has elapsed and the backend is
available, set backend_available false on the clone, patch replicas to
0 (patchOk gives each workload patch's success; a failure propagates
through the question-mark operator, ending the pass), then write the
whole clone back into the registry. -/
def scale_down_keys (now : Int) (patchOk : String → Bool) :
    List String → List (String × ServiceData) → ScaleDownResult
  | [], registry => ⟨registry, [], none⟩
  | key :: rest, registry =>
    match alookup registry key with
    | none => ⟨registry, [], some "panicked: missing record"⟩
    | some svc =>
      if now - svc.last_packet_time > svc.scale_down_time ∧ svc.backend_available then
        let service := { svc with backend_available := false }
        if service.kind = "deployment" ∨ service.kind = "statefulset" then
          if patchOk service.name then
            let r := scale_down_keys now patchOk rest (ainsert registry key service)
            ⟨r.registry, ⟨service.kind, service.name, 0⟩ :: r.patches, r.err⟩
          else ⟨registry, [], some "patch error"⟩
        else
          let r := scale_down_keys now patchOk rest (ainsert registry key service)
          ⟨r.registry, r.patches, r.err⟩
      else scale_down_keys now patchOk rest registry

/-- One iteration of the scale_down loop (scaler.rs lines 17-68): take
the key snapshot under the lock, then process each key in order. -/
def scale_down_once (now : Int) (patchOk : String → Bool)
    (registry : List (String × ServiceData)) : ScaleDownResult :=
  scale_down_keys now patchOk (registry.map Prod.fst) registry

/-- Interleaving model for a single WATCHED_SERVICES record: the stored
record together with the scale_down loop's pending clone (the local
service variable held between the clone under one lock acquisition and
the write-back under a later one, across the patch await). -/
structure RecState where
  record : ServiceData
  pending : Option ServiceData
deriving Repr, DecidableEq

/-- One operation touching the record, each taken from the source:
create is the watcher's registry insert seeding last_packet_time = now
(controller.rs update_workload_status); touch is the wake consumer's
last_packet_time = now (utils.rs process_packet); scalerSnapshot is the
scale_down clone plus guard plus flag flip on the clone (scaler.rs
lines 26-33); scalerWriteback is the whole-record write-back after the
patch (scaler.rs lines 60-64). -/
inductive RecOp where
  | create (svc : ServiceData)
  | touch (t : Int)
  | scalerSnapshot (now : Int)
  | scalerWriteback
deriving Repr, DecidableEq

/-- Step function of the interleaving model. -/
def stepOp (s : RecState) (op : RecOp) : RecState :=
  match op with
  | RecOp.create svc => { s with record := svc }
  | RecOp.touch t => { s with record := { s.record with last_packet_time := t } }
  | RecOp.scalerSnapshot now =>
    if now - s.record.last_packet_time > s.record.scale_down_time
        ∧ s.record.backend_available then
      { s with pending := some { s.record with backend_available := false } }
    else s
  | RecOp.scalerWriteback =>
    match s.pending with
    | some svc => { record := svc, pending := none }
    | none => s

/-- Run a sequence of operations from an initial state. -/
def runOps (s : RecState) (ops : List RecOp) : RecState :=
  ops.foldl stepOp s

/-- The reference annotation key recognized by the watcher. -/
def refKey : String := "scale-to-zero.isala.me/reference"

/-- The scale-down-time annotation key recognized by the watcher. -/
def sdtKey : String := "scale-to-zero.isala.me/scale-down-time"

/-- Splitting a character list at slashes, accumulating the current
segment in reverse. -/
def splitSlashAux : List Char → List Char → List String
  | [], acc => [String.mk acc.reverse]
  | c :: rest, acc =>
    if c = '/' then String.mk acc.reverse :: splitSlashAux rest []
    else splitSlashAux rest (c :: acc)

/-- Rust str::split with the slash character, collected to a list:
the segments between slashes, with empty segments kept. -/
def splitSlash (s : String) : List String :=
  splitSlashAux s.data []

/-- Decimal digit value of a character, as in Rust integer parsing. -/
def decDigit (c : Char) : Option Nat :=
  if c.isDigit then some (c.toNat - 48) else none

/-- Accumulate the value of a run of decimal digits; any non-digit
fails. -/
def digitsVal : List Char → Nat → Option Nat
  | [], acc => some acc
  | c :: rest, acc =>
    match decDigit c with
    | some d => digitsVal rest (acc * 10 + d)
    | none => none

/-- str::parse::<i64>: an optional single leading sign, then a
non-empty run of decimal digits, rejecting values outside the i64
range. -/
def parseI64 (s : String) : Option Int :=
  let chars := s.data
  let signed :=
    match chars with
    | '-' :: rest => (true, rest)
    | '+' :: rest => (false, rest)
    | l => (false, l)
  match signed.2 with
  | [] => none
  | ds =>
    match digitsVal ds 0 with
    | none => none
    | some n =>
      let v : Int := if signed.1 then -(n : Int) else (n : Int)
      if v < -(2 ^ 63) ∨ 2 ^ 63 - 1 < v then none else some v

/-- How the Watched::Service arm of kube_event_watcher
(scale-to-zero/src/kubernetes/controller.rs lines 56-111) leaves the
event: skipped via continue, panicked on an unwrap of a missing
value, fatal when an error propagates through the question-mark
operator (terminating the watcher loop), or proceeded to workload
resolution with the extracted fields. -/
inductive EventOutcome where
  | skipped
  | panicked
  | fatal
  | proceeded (workloadType workloadName : String) (scaleDownTime : Int) (serviceIP : String)
deriving Repr, DecidableEq

/-- The Watched::Service arm of kube_event_watcher up to workload
resolution (controller.rs lines 56-111).  The guard skips the event
only when the reference key is absent AND the scale-down-time key is
absent; both annotation values are then read with unwrap; a reference
that does not split into exactly two parts is logged and skipped; a
scale-down-time that does not parse as i64 propagates through the
question-mark operator, as does a missing cluster IP. -/
def handle_service_event (anns : List (String × String))
    (clusterIP : Option String) : EventOutcome :=
  if (alookup anns refKey).isNone ∧ (alookup anns sdtKey).isNone then
    EventOutcome.skipped
  else
    match alookup anns refKey with
    | none => EventOutcome.panicked
    | some workload_ref =>
      let parts := splitSlash workload_ref
      if parts.length ≠ 2 then EventOutcome.skipped
      else
        match alookup anns sdtKey with
        | none => EventOutcome.panicked
        | some sdtStr =>
          match parseI64 sdtStr with
          | none => EventOutcome.fatal
          | some n =>
            match clusterIP with
            | none => EventOutcome.fatal
            | some ip => EventOutcome.proceeded (parts.getD 0 "") (parts.getD 1 "") n ip

/-- A single-key kernel-map operation performed by the sync step. -/
inductive MapOp where
  | insertOp (key value : Nat)
  | removeOp (key : Nat)
deriving Repr, DecidableEq

/-- The projection pod_ips built by sync_data
(scale-to-zero/src/utils.rs lines 44-54): each registry record maps its
parsed cluster IP to backend_available as a 0/1 flag.  The registry is
taken here with its cluster_ip keys already parsed to host-order u32,
standing for k.parse::<Ipv4Addr>().unwrap().into(). -/
def projectRegistry (registry : List (Nat × ServiceData)) : List (Nat × Nat) :=
  registry.map (fun kv => (kv.1, if kv.2.backend_available then 1 else 0))

/-- First phase of sync_data (utils.rs lines 56-69): for each desired
entry, write it into the kernel table when it is missing or its stored
value differs; equal values are skipped. -/
def sync_upsert : List (Nat × Nat) → List (Nat × Nat) → List (Nat × Nat) × List MapOp
  | [], kernel => (kernel, [])
  | (key, value) :: rest, kernel =>
    match alookup kernel key with
    | some old_value =>
      if old_value ≠ value then
        let r := sync_upsert rest (ainsert kernel key value)
        (r.1, MapOp.insertOp key value :: r.2)
      else sync_upsert rest kernel
    | none =>
      let r := sync_upsert rest (ainsert kernel key value)
      (r.1, MapOp.insertOp key value :: r.2)

/-- Second phase of sync_data (utils.rs lines 71-84): iterate a
snapshot of the kernel table's keys and remove every key absent from
the desired projection. -/
def sync_remove (pod_ips : List (Nat × Nat)) :
    List Nat → List (Nat × Nat) → List (Nat × Nat) × List MapOp
  | [], kernel => (kernel, [])
  | key :: rest, kernel =>
    if (alookup pod_ips key).isNone then
      let r := sync_remove pod_ips rest (aremove kernel key)
      (r.1, MapOp.removeOp key :: r.2)
    else sync_remove pod_ips rest kernel

/-- sync_data (scale-to-zero/src/utils.rs lines 43-85): upsert every
desired entry, then snapshot the kernel table's keys and remove the
extras.  Returns the new kernel table and the operations performed. -/
def sync_data (pod_ips kernel : List (Nat × Nat)) : List (Nat × Nat) × List MapOp :=
  let up := sync_upsert pod_ips kernel
  let rm := sync_remove pod_ips (up.1.map Prod.fst) up.1
  (rm.1, up.2 ++ rm.2)

/-- A registry record for a scaled-down deployment foo, used as a
concrete input. -/
def svcFoo : ServiceData := ⟨60, 0, "deployment", "foo", "default", false⟩

/-- A registry record for an available deployment foo that has been
idle past its scale-down window at time 10, used as a concrete input. -/
def svcIdle : ServiceData := ⟨3, 0, "deployment", "foo", "default", true⟩

/-- A second idle available record backed by deployment bar, used as a
concrete input. -/
def svcIdleBar : ServiceData := ⟨3, 0, "deployment", "bar", "default", true⟩

theorem alookup_ainsert {κ α : Type} [DecidableEq κ] (m : List (κ × α)) (k : κ) (v : α)
    (k' : κ) : alookup (ainsert m k v) k' = if k = k' then some v else alookup m k' := by
  induction m with
  | nil => simp [ainsert, alookup]
  | cons hd tl ih =>
    obtain ⟨a, b⟩ := hd
    simp only [ainsert]
    by_cases hak : a = k
    · subst hak
      by_cases hak' : a = k'
      · subst hak'
        simp [alookup]
      · simp [alookup, hak']
    · rw [if_neg hak]
      simp only [alookup, ih]
      by_cases hak' : a = k'
      · subst hak'
        simp [Ne.symm hak]
      · simp [hak']

theorem alookup_aremove {κ α : Type} [DecidableEq κ] (m : List (κ × α)) (k k' : κ) :
    alookup (aremove m k) k' = if k = k' then none else alookup m k' := by
  induction m with
  | nil => simp [aremove, alookup]
  | cons hd tl ih =>
    obtain ⟨a, b⟩ := hd
    simp only [aremove]
    by_cases hak : a = k
    · subst hak
      rw [if_pos rfl, ih]
      by_cases hak' : a = k'
      · subst hak'; simp [alookup]
      · simp [alookup, hak']
    · rw [if_neg hak]
      simp only [alookup, ih]
      by_cases hak' : a = k'
      · subst hak'
        simp [Ne.symm hak]
      · simp [hak']

theorem mem_aremove {κ α : Type} [DecidableEq κ] (m : List (κ × α)) (k : κ) (kv : κ × α) :
    kv ∈ aremove m k ↔ kv ∈ m ∧ kv.1 ≠ k := by
  induction m with
  | nil => simp [aremove]
  | cons hd tl ih =>
    obtain ⟨a, b⟩ := hd
    simp only [aremove]
    by_cases hak : a = k
    · subst hak
      rw [if_pos rfl, ih]
      constructor
      · rintro ⟨h1, h2⟩; exact ⟨List.mem_cons_of_mem _ h1, h2⟩
      · rintro ⟨h1, h2⟩
        rcases List.mem_cons.mp h1 with h3 | h3
        · subst h3; simp at h2
        · exact ⟨h3, h2⟩
    · rw [if_neg hak]
      constructor
      · intro h1
        rcases List.mem_cons.mp h1 with h3 | h3
        · subst h3; exact ⟨List.mem_cons_self _ _, hak⟩
        · have := ih.mp h3
          exact ⟨List.mem_cons_of_mem _ this.1, this.2⟩
      · rintro ⟨h1, h2⟩
        rcases List.mem_cons.mp h1 with h3 | h3
        · subst h3; exact List.mem_cons_self _ _
        · exact List.mem_cons_of_mem _ (ih.mpr ⟨h3, h2⟩)

theorem alookup_eq_none_of_not_mem {κ α : Type} [DecidableEq κ] (m : List (κ × α))
    (k : κ) (h : k ∉ m.map Prod.fst) : alookup m k = none := by
  induction m with
  | nil => rfl
  | cons hd tl ih =>
    obtain ⟨a, b⟩ := hd
    simp only [List.map_cons, List.mem_cons] at h
    push_neg at h
    simp only [alookup, if_neg (Ne.symm h.1)]
    exact ih h.2

theorem alookup_isSome_of_mem {κ α : Type} [DecidableEq κ] (m : List (κ × α)) (k : κ)
    (v : α) (h : (k, v) ∈ m) : (alookup m k).isSome := by
  induction m with
  | nil => simp at h
  | cons hd tl ih =>
    obtain ⟨a, b⟩ := hd
    rcases List.mem_cons.mp h with h1 | h1
    · cases h1
      simp [alookup]
    · by_cases hak : a = k
      · simp [alookup, hak]
      · simp only [alookup, if_neg hak]
        exact ih h1

theorem alookup_of_mem_nodup {κ α : Type} [DecidableEq κ] (m : List (κ × α)) (k : κ)
    (v : α) (hnd : (m.map Prod.fst).Nodup) (h : (k, v) ∈ m) : alookup m k = some v := by
  induction m with
  | nil => simp at h
  | cons hd tl ih =>
    obtain ⟨a, b⟩ := hd
    simp only [List.map_cons, List.nodup_cons] at hnd
    rcases List.mem_cons.mp h with h1 | h1
    · cases h1
      simp [alookup]
    · have hak : a ≠ k := by
        intro hh
        subst hh
        exact hnd.1 (List.mem_map_of_mem Prod.fst h1)
      simp only [alookup, if_neg hak]
      exact ih hnd.2 h1

/-- Claim C1: for an inbound frame whose Ethernet and IPv4 headers are
within bounds, the classifier's decision is a pure case-split on the
ServiceAvailability lookup of the host-order destination IPv4: a miss
returns PASS with no event; flag 1 returns PASS with exactly one
WakeEvent with action 0; flag 0 returns DROP with exactly one WakeEvent
with action 1. -/
theorem classifier_case_split (sl : Nat → Option Nat) (frame : List Nat)
    (hlen : 34 ≤ frame.length) (hip : readU16be frame 12 = 0x0800) :
    (sl (readU32be frame 30) = none →
      xdp_scale_to_zero_fw sl frame = (XDP_PASS, [])) ∧
    (sl (readU32be frame 30) = some 1 →
      xdp_scale_to_zero_fw sl frame = (XDP_PASS, [⟨readU32be frame 30, 0⟩])) ∧
    (sl (readU32be frame 30) = some 0 →
      xdp_scale_to_zero_fw sl frame = (XDP_DROP, [⟨readU32be frame 30, 1⟩])) := by
  have h1 : ptrAtOk frame.length 0 ethHdrLen = true := by
    simp only [ptrAtOk, ethHdrLen, decide_eq_true_eq]
    omega
  have h2 : ptrAtOk frame.length ethHdrLen ipv4HdrLen = true := by
    simp only [ptrAtOk, ethHdrLen, ipv4HdrLen, decide_eq_true_eq]
    omega
  have h3 : etherTypeIsIpv4 frame = true := by
    simp [etherTypeIsIpv4, hip]
  have h30 : ethHdrLen + 16 = 30 := by decide
  refine ⟨?_, ?_, ?_⟩ <;> intro hsl <;>
    simp [xdp_scale_to_zero_fw, try_xdp_scale_to_zero_fw, h1, h2, h3, h30,
      is_scalable_dst, hsl]

/-- Witness for classifier_case_split at a concrete 34-byte IPv4 frame
for destination 10.0.0.5 with the table mapping it to flag 0. -/
theorem classifier_case_split_witness :
    xdp_scale_to_zero_fw (fun ip => if ip = 167772165 then some 0 else none) frame34
      = (XDP_DROP, [⟨readU32be frame34 30, 1⟩]) :=
  (classifier_case_split (fun ip => if ip = 167772165 then some 0 else none) frame34
    (by decide) (by decide)).2.2 (by decide)

/-- Counterexample to claim C3: the empty frame is truncated before the
Ethernet header, yet the classifier returns XDP_ABORTED (the Err of the
failed bounds check maps to the abort action), not XDP_PASS. -/
theorem truncated_frame_aborts :
    xdp_scale_to_zero_fw (fun _ => none) [] = (XDP_ABORTED, [])
      ∧ XDP_ABORTED ≠ XDP_PASS := by
  constructor
  · rfl
  · decide

/-- Claim C3 as amended: a frame too short for the Ethernet header
returns ABORT; a frame with a complete Ethernet header and a non-IPv4
EtherType returns PASS regardless of further truncation; an IPv4 frame
truncated before the end of the IPv4 header returns ABORT.  ABORT is
the truncation result, not PASS. -/
theorem truncation_behavior (sl : Nat → Option Nat) (frame : List Nat) :
    (frame.length < 14 → xdp_scale_to_zero_fw sl frame = (XDP_ABORTED, [])) ∧
    (14 ≤ frame.length → readU16be frame 12 ≠ 0x0800 →
      xdp_scale_to_zero_fw sl frame = (XDP_PASS, [])) ∧
    (14 ≤ frame.length → readU16be frame 12 = 0x0800 → frame.length < 34 →
      xdp_scale_to_zero_fw sl frame = (XDP_ABORTED, [])) := by
  refine ⟨?_, ?_, ?_⟩
  · intro hshort
    have h1 : ptrAtOk frame.length 0 ethHdrLen = false := by
      simp only [ptrAtOk, ethHdrLen, decide_eq_false_iff_not]
      omega
    simp [xdp_scale_to_zero_fw, try_xdp_scale_to_zero_fw, h1]
  · intro hlen hn
    have h1 : ptrAtOk frame.length 0 ethHdrLen = true := by
      simp only [ptrAtOk, ethHdrLen, decide_eq_true_eq]
      omega
    have h3 : etherTypeIsIpv4 frame = false := by
      simp [etherTypeIsIpv4, hn]
    simp [xdp_scale_to_zero_fw, try_xdp_scale_to_zero_fw, h1, h3]
  · intro hlen hip hshort
    have h1 : ptrAtOk frame.length 0 ethHdrLen = true := by
      simp only [ptrAtOk, ethHdrLen, decide_eq_true_eq]
      omega
    have h2 : ptrAtOk frame.length ethHdrLen ipv4HdrLen = false := by
      simp only [ptrAtOk, ethHdrLen, ipv4HdrLen, decide_eq_false_iff_not]
      omega
    have h3 : etherTypeIsIpv4 frame = true := by
      simp [etherTypeIsIpv4, hip]
    simp [xdp_scale_to_zero_fw, try_xdp_scale_to_zero_fw, h1, h2, h3]

/-- Witness for truncation_behavior at a 14-byte IPv4 frame, truncated
before the IPv4 header: the classifier aborts. -/
theorem truncation_behavior_witness :
    xdp_scale_to_zero_fw (fun _ => none)
      [0, 0, 0, 0, 0, 0, 0, 0, 0, 0, 0, 0, 8, 0] = (XDP_ABORTED, []) :=
  (truncation_behavior (fun _ => none)
    [0, 0, 0, 0, 0, 0, 0, 0, 0, 0, 0, 0, 8, 0]).2.2 (by decide) (by decide) (by decide)

/-- Claim C2 evaluated at its failing input: scale_up for 10.0.0.5 runs
to completion (not rate-limited) and submits the replicas patch, yet
the ServiceRegistry entry still has backend_available = false — the
source sets the flag on a local clone and never writes it back. -/
theorem scale_up_never_writes_flag_back :
    (scale_up 100 [] [("10.0.0.5", svcFoo)] "10.0.0.5").outcome = ScaleUpOutcome.ok ∧
    (scale_up 100 [] [("10.0.0.5", svcFoo)] "10.0.0.5").patches
      = [⟨"deployment", "foo", 1⟩] ∧
    alookup (scale_up 100 [] [("10.0.0.5", svcFoo)] "10.0.0.5").registry "10.0.0.5"
      = some svcFoo ∧
    svcFoo.backend_available = false := by
  decide

/-- Claim C4 evaluated at its failing inputs: a service event carrying
only the reference key, or only the scale-down-time key, is not
ignored — the guard only skips when both are absent, and the unwrap of
the missing value panics the watcher task; only the unannotated event
is skipped. -/
theorem single_annotated_service_panics :
    handle_service_event [(refKey, "deployment/foo")] (some "10.0.0.5")
      = EventOutcome.panicked ∧
    handle_service_event [(sdtKey, "60")] (some "10.0.0.5")
      = EventOutcome.panicked ∧
    handle_service_event [] (some "10.0.0.5") = EventOutcome.skipped := by
  decide

/-- Claim C5 evaluated at its failing interleaving: the scale-down loop
snapshots the record at time 10, a wake event then updates
last_packet_time to 10, and the scale-down write-back restores the
stale clone, storing 0 over the currently stored 10 — last_packet_time
decreases. -/
theorem stale_writeback_decreases_timestamp :
    (runOps ⟨svcIdle, none⟩
        [RecOp.scalerSnapshot 10, RecOp.touch 10]).record.last_packet_time = 10 ∧
    (runOps ⟨svcIdle, none⟩
        [RecOp.scalerSnapshot 10, RecOp.touch 10,
         RecOp.scalerWriteback]).record.last_packet_time = 0 ∧
    (runOps ⟨svcIdle, none⟩
        [RecOp.scalerSnapshot 10, RecOp.touch 10,
         RecOp.scalerWriteback]).record.last_packet_time
      < (runOps ⟨svcIdle, none⟩
          [RecOp.scalerSnapshot 10, RecOp.touch 10]).record.last_packet_time := by
  decide

/-- Claim C10 evaluated at its failing input: a wake event with action 1
for 10.0.0.5, which has no ServiceRecord, is not ignored — scale_up is
invoked, the rate limiter is mutated, and the unwrap of the missing
record panics the wake-consumer task.  The action-0 event for the same
unknown address is ignored as the claim states. -/
theorem unknown_ip_wake_event_panics :
    process_packet 100 [] [] ⟨167772165, 1⟩ = ⟨[], [("10.0.0.5", 100)], [], true⟩ ∧
    process_packet 100 [] [] ⟨167772165, 0⟩ = ⟨[], [], [], false⟩ := by
  decide

/-- Counterexample to claim C6: in a pass of the scale-down loop over
two idle available records, a failed patch on the first key returns the
error immediately — the second key, though it meets every scale-down
condition, is neither patched nor updated, so a per-key error does
terminate the loop. -/
theorem scale_down_error_aborts_pass :
    scale_down_once 10 (fun n => decide (n ≠ "foo"))
        [("ipA", svcIdle), ("ipB", svcIdleBar)]
      = ⟨[("ipA", svcIdle), ("ipB", svcIdleBar)], [], some "patch error"⟩ ∧
    10 - svcIdleBar.last_packet_time > svcIdleBar.scale_down_time ∧
    svcIdleBar.backend_available = true := by
  decide

/-- Claim C6 as amended: when a key's record requires scale-down (idle
past its window and available, deployment kind) and its replicas patch
fails, the scale-down pass returns the error at once: the registry is
left unchanged, no patch is recorded, and no later key is processed. -/
theorem scale_down_patch_error_terminates (now : Int) (patchOk : String → Bool)
    (key : String) (svc : ServiceData) (rest : List (String × ServiceData))
    (h1 : now - svc.last_packet_time > svc.scale_down_time)
    (h2 : svc.backend_available = true)
    (h3 : svc.kind = "deployment")
    (h4 : patchOk svc.name = false) :
    scale_down_once now patchOk ((key, svc) :: rest)
      = ⟨(key, svc) :: rest, [], some "patch error"⟩ := by
  simp [scale_down_once, scale_down_keys, alookup, h1, h2, h3, h4]

/-- Witness for scale_down_patch_error_terminates: a single idle
available record whose patch fails. -/
theorem scale_down_patch_error_terminates_witness :
    scale_down_once 10 (fun _ => false) [("ipA", svcIdle)]
      = ⟨[("ipA", svcIdle)], [], some "patch error"⟩ :=
  scale_down_patch_error_terminates 10 (fun _ => false) "ipA" svcIdle []
    (by decide) (by decide) (by decide) rfl

/-- Claim C9 as stated is false: a service event whose scale-down-time
value does not parse as an integer is not logged-and-skipped — the
parse error propagates through the question-mark operator, which
terminates the watcher loop. -/
theorem malformed_scale_down_time_is_fatal :
    handle_service_event [(refKey, "deployment/foo"), (sdtKey, "abc")]
        (some "10.0.0.5") = EventOutcome.fatal ∧
    EventOutcome.fatal ≠ EventOutcome.skipped := by
  decide

/-- Claim C9 as amended: for every service event carrying a well-formed
reference and a scale-down-time value that does not parse as an
integer, the handler ends fatally — the error is returned from
kube_event_watcher, terminating the watcher loop, rather than the event
being skipped. -/
theorem malformed_scale_down_time_terminates (anns : List (String × String))
    (ip ref sdtStr : String)
    (h1 : alookup anns refKey = some ref)
    (h2 : (splitSlash ref).length = 2)
    (h3 : alookup anns sdtKey = some sdtStr)
    (h4 : parseI64 sdtStr = none) :
    handle_service_event anns (some ip) = EventOutcome.fatal := by
  simp [handle_service_event, h1, h2, h3, h4]

/-- Witness for malformed_scale_down_time_terminates at a statefulset
reference and the non-numeric value 12x. -/
theorem malformed_scale_down_time_terminates_witness :
    handle_service_event [(refKey, "statefulset/db"), (sdtKey, "12x")]
      (some "10.0.0.9") = EventOutcome.fatal :=
  malformed_scale_down_time_terminates
    [(refKey, "statefulset/db"), (sdtKey, "12x")] "10.0.0.9" "statefulset/db" "12x"
    (by decide) (by decide) (by decide) (by decide)

theorem scale_up_body_lastCalled (lc : List (String × Int))
    (reg : List (String × ServiceData)) (ip : String) :
    (scale_up_body lc reg ip).lastCalled = lc := by
  cases h : alookup reg ip <;> simp [scale_up_body, h]

/-- Claim C7: a scale_up call for an ip whose recorded timestamp is
less than 5 seconds old returns the rate-limited error with no patch
and no rate-limiter change; whenever a call issues a patch it has first
recorded now in the rate limiter; and after a patching call, any call
for the same ip within the next 5 seconds is rate-limited with no
patch — at most one patch per ip per 5-second window. -/
theorem scale_up_rate_limited (now now2 t : Int) (lc : List (String × Int))
    (reg reg2 : List (String × ServiceData)) (ip : String) :
    (alookup lc ip = some t → t ≤ now → now - t < 5 →
      scale_up now lc reg ip = ⟨lc, reg, [], ScaleUpOutcome.rateLimited⟩) ∧
    ((scale_up now lc reg ip).patches ≠ [] →
      alookup (scale_up now lc reg ip).lastCalled ip = some now) ∧
    ((scale_up now lc reg ip).patches ≠ [] → now ≤ now2 → now2 - now < 5 →
      scale_up now2 (scale_up now lc reg ip).lastCalled reg2 ip
        = ⟨(scale_up now lc reg ip).lastCalled, reg2, [],
            ScaleUpOutcome.rateLimited⟩) := by
  have hlast : (scale_up now lc reg ip).patches ≠ [] →
      (scale_up now lc reg ip).lastCalled = ainsert lc ip now := by
    intro hp
    simp only [scale_up] at hp ⊢
    cases h : alookup lc ip with
    | none =>
      simp only [h] at hp ⊢
      exact scale_up_body_lastCalled _ _ _
    | some time =>
      simp only [h] at hp ⊢
      by_cases hlt : now < time
      · simp [hlt] at hp
      · simp only [if_neg hlt] at hp ⊢
        by_cases h5 : now - time < 5
        · simp [h5] at hp
        · simp only [if_neg h5] at hp ⊢
          exact scale_up_body_lastCalled _ _ _
  have h2 : (scale_up now lc reg ip).patches ≠ [] →
      alookup (scale_up now lc reg ip).lastCalled ip = some now := by
    intro hp
    rw [hlast hp, alookup_ainsert]
    simp
  refine ⟨?_, h2, ?_⟩
  · intro hl hle h5
    have h1 : ¬ now < t := by omega
    simp [scale_up, hl, h1, h5]
  · intro hp hle h5
    have halc := h2 hp
    have h1 : ¬ now2 < now := by omega
    set A := (scale_up now lc reg ip).lastCalled with hA
    simp [scale_up, halc, h1, h5]

/-- Witness for scale_up_rate_limited: a call at time 3 for an ip last
scaled up at time 0 is rate-limited. -/
theorem scale_up_rate_limited_witness :
    scale_up 3 [("10.0.0.5", 0)] [] "10.0.0.5"
      = ⟨[("10.0.0.5", 0)], [], [], ScaleUpOutcome.rateLimited⟩ :=
  (scale_up_rate_limited 3 0 0 [("10.0.0.5", 0)] [] [] "10.0.0.5").1
    (by decide) (by decide) (by decide)

theorem isNone_eq_false_of_isSome {α : Type} (o : Option α) (h : o.isSome = true) :
    o.isNone = false := by
  cases o <;> simp_all

theorem isSome_of_not_isNone {α : Type} (o : Option α) (h : ¬ o.isNone = true) :
    o.isSome = true := by
  cases o <;> simp_all

theorem sync_upsert_lookup_none (desired : List (Nat × Nat)) :
    ∀ (kernel : List (Nat × Nat)) (k : Nat), alookup desired k = none →
      alookup (sync_upsert desired kernel).1 k = alookup kernel k := by
  induction desired with
  | nil => intro kernel k _; rfl
  | cons hd rest ih =>
    intro kernel k hn
    obtain ⟨a, b⟩ := hd
    simp only [alookup] at hn
    by_cases hak : a = k
    · simp [hak] at hn
    · rw [if_neg hak] at hn
      cases h : alookup kernel a with
      | none =>
        have h2 := ih (ainsert kernel a b) k hn
        rw [alookup_ainsert, if_neg hak] at h2
        simpa only [sync_upsert, h] using h2
      | some old =>
        by_cases hob : old ≠ b
        · have h2 := ih (ainsert kernel a b) k hn
          rw [alookup_ainsert, if_neg hak] at h2
          simpa only [sync_upsert, h, if_pos hob] using h2
        · have h2 := ih kernel k hn
          simpa only [sync_upsert, h, if_neg hob] using h2

theorem sync_upsert_lookup_some (desired : List (Nat × Nat)) :
    ∀ (kernel : List (Nat × Nat)) (k v : Nat), (desired.map Prod.fst).Nodup →
      alookup desired k = some v →
      alookup (sync_upsert desired kernel).1 k = some v := by
  induction desired with
  | nil => intro kernel k v _ hv; simp [alookup] at hv
  | cons hd rest ih =>
    intro kernel k v hnd hv
    obtain ⟨a, b⟩ := hd
    simp only [List.map_cons, List.nodup_cons] at hnd
    simp only [alookup] at hv
    by_cases hak : a = k
    · subst hak
      rw [if_pos rfl] at hv
      have hbv : b = v := by injection hv
      subst hbv
      have hrest : alookup rest a = none :=
        alookup_eq_none_of_not_mem rest a hnd.1
      cases h : alookup kernel a with
      | none =>
        have h2 := sync_upsert_lookup_none rest (ainsert kernel a b) a hrest
        rw [alookup_ainsert, if_pos rfl] at h2
        simpa only [sync_upsert, h] using h2
      | some old =>
        by_cases hob : old ≠ b
        · have h2 := sync_upsert_lookup_none rest (ainsert kernel a b) a hrest
          rw [alookup_ainsert, if_pos rfl] at h2
          simpa only [sync_upsert, h, if_pos hob] using h2
        · push_neg at hob
          have h2 := sync_upsert_lookup_none rest kernel a hrest
          rw [h, hob] at h2
          simpa [sync_upsert, h, hob] using h2
    · rw [if_neg hak] at hv
      cases h : alookup kernel a with
      | none =>
        simpa only [sync_upsert, h] using ih (ainsert kernel a b) k v hnd.2 hv
      | some old =>
        by_cases hob : old ≠ b
        · simpa only [sync_upsert, h, if_pos hob] using
            ih (ainsert kernel a b) k v hnd.2 hv
        · simpa only [sync_upsert, h, if_neg hob] using ih kernel k v hnd.2 hv

theorem sync_upsert_skip (desired : List (Nat × Nat)) :
    ∀ kernel : List (Nat × Nat),
      (∀ a b, (a, b) ∈ desired → alookup kernel a = some b) →
      sync_upsert desired kernel = (kernel, []) := by
  induction desired with
  | nil => intro kernel _; rfl
  | cons hd rest ih =>
    intro kernel h
    obtain ⟨a, b⟩ := hd
    have ha := h a b (List.mem_cons_self _ _)
    simp only [sync_upsert, ha]
    rw [if_neg (by simp : ¬ b ≠ b)]
    exact ih kernel (fun x y hxy => h x y (List.mem_cons_of_mem _ hxy))

theorem sync_remove_lookup (pod : List (Nat × Nat)) (keys : List Nat) :
    ∀ (kernel : List (Nat × Nat)) (k : Nat),
      alookup (sync_remove pod keys kernel).1 k
        = if (alookup pod k).isSome = true then alookup kernel k
          else if k ∈ keys then none else alookup kernel k := by
  induction keys with
  | nil =>
    intro kernel k
    by_cases hs : (alookup pod k).isSome = true <;> simp [sync_remove, hs]
  | cons key rest ih =>
    intro kernel k
    simp only [sync_remove]
    by_cases hkn : (alookup pod key).isNone = true
    · rw [if_pos hkn]
      show alookup (sync_remove pod rest (aremove kernel key)).1 k
        = if (alookup pod k).isSome = true then alookup kernel k
          else if k ∈ key :: rest then none else alookup kernel k
      rw [ih (aremove kernel key) k, alookup_aremove]
      by_cases hs : (alookup pod k).isSome = true
      · rw [if_pos hs, if_pos hs]
        have hne : key ≠ k := by
          intro hh
          subst hh
          rw [Option.isNone_iff_eq_none] at hkn
          rw [hkn] at hs
          simp at hs
        rw [if_neg hne]
      · rw [if_neg hs, if_neg hs]
        by_cases hkr : k ∈ rest
        · rw [if_pos hkr, if_pos (List.mem_cons_of_mem _ hkr)]
        · rw [if_neg hkr]
          by_cases hkk : key = k
          · subst hkk
            rw [if_pos rfl, if_pos (List.mem_cons_self _ _)]
          · rw [if_neg hkk,
              if_neg (by
                simp only [List.mem_cons]
                push_neg
                exact ⟨fun hh => hkk hh.symm, hkr⟩)]
    · rw [if_neg hkn]
      rw [ih kernel k]
      have hks : (alookup pod key).isSome = true := isSome_of_not_isNone _ hkn
      by_cases hs : (alookup pod k).isSome = true
      · rw [if_pos hs, if_pos hs]
      · rw [if_neg hs, if_neg hs]
        have hkk : key ≠ k := by
          intro hh
          subst hh
          exact hs hks
        by_cases hkr : k ∈ rest
        · rw [if_pos hkr, if_pos (List.mem_cons_of_mem _ hkr)]
        · rw [if_neg hkr,
            if_neg (by
              simp only [List.mem_cons]
              push_neg
              exact ⟨fun hh => hkk hh.symm, hkr⟩)]

theorem sync_remove_skip (pod : List (Nat × Nat)) (keys : List Nat) :
    ∀ kernel : List (Nat × Nat),
      (∀ key ∈ keys, (alookup pod key).isSome = true) →
      sync_remove pod keys kernel = (kernel, []) := by
  induction keys with
  | nil => intro kernel _; rfl
  | cons key rest ih =>
    intro kernel h
    have hk := h key (List.mem_cons_self _ _)
    simp only [sync_remove]
    rw [if_neg (by simp [isNone_eq_false_of_isSome _ hk])]
    exact ih kernel (fun x hx => h x (List.mem_cons_of_mem _ hx))

theorem sync_remove_entries (pod : List (Nat × Nat)) (keys : List Nat) :
    ∀ kernel : List (Nat × Nat),
      (∀ kv ∈ kernel, kv.1 ∈ keys ∨ (alookup pod kv.1).isSome = true) →
      ∀ kv ∈ (sync_remove pod keys kernel).1, (alookup pod kv.1).isSome = true := by
  induction keys with
  | nil =>
    intro kernel h kv hkv
    rcases h kv hkv with h1 | h1
    · simp at h1
    · exact h1
  | cons key rest ih =>
    intro kernel h kv hkv
    by_cases hkn : (alookup pod key).isNone = true
    · simp only [sync_remove, if_pos hkn] at hkv
      refine ih (aremove kernel key) ?_ kv hkv
      intro kv2 hkv2
      have hm := (mem_aremove kernel key kv2).mp hkv2
      rcases h kv2 hm.1 with h1 | h1
      · rcases List.mem_cons.mp h1 with h2 | h2
        · exact absurd h2 hm.2
        · exact Or.inl h2
      · exact Or.inr h1
    · simp only [sync_remove, if_neg hkn] at hkv
      refine ih kernel ?_ kv hkv
      intro kv2 hkv2
      rcases h kv2 hkv2 with h1 | h1
      · rcases List.mem_cons.mp h1 with h2 | h2
        · rw [h2]
          exact Or.inr (isSome_of_not_isNone _ hkn)
        · exact Or.inl h2
      · exact Or.inr h1

theorem projectRegistry_keys (registry : List (Nat × ServiceData)) :
    (projectRegistry registry).map Prod.fst = registry.map Prod.fst := by
  induction registry with
  | nil => rfl
  | cons hd tl ih =>
    simp only [projectRegistry, List.map_cons] at ih ⊢
    rw [ih]

/-- Claim C8: one pass of sync_data, starting from any kernel table,
leaves the kernel ServiceAvailability table extensionally equal to the
projection of the registry (ip mapped to backend_available as a 0/1
flag), and the step is idempotent: a second pass on the same registry
performs no insert and no remove operation. -/
theorem sync_projection_idempotent (registry : List (Nat × ServiceData))
    (kernel : List (Nat × Nat)) (hnd : (registry.map Prod.fst).Nodup) :
    (∀ k, alookup (sync_data (projectRegistry registry) kernel).1 k
        = alookup (projectRegistry registry) k) ∧
    (sync_data (projectRegistry registry)
        (sync_data (projectRegistry registry) kernel).1).2 = [] := by
  set desired := projectRegistry registry with hdes
  have hnd' : (desired.map Prod.fst).Nodup := by
    rw [hdes, projectRegistry_keys]
    exact hnd
  have hpart1 : ∀ (kern : List (Nat × Nat)) (k : Nat),
      alookup (sync_data desired kern).1 k = alookup desired k := by
    intro kern k
    show alookup (sync_remove desired ((sync_upsert desired kern).1.map Prod.fst)
        (sync_upsert desired kern).1).1 k = alookup desired k
    rw [sync_remove_lookup desired]
    by_cases hs : (alookup desired k).isSome = true
    · rw [if_pos hs]
      obtain ⟨v, hv⟩ := Option.isSome_iff_exists.mp hs
      rw [hv]
      exact sync_upsert_lookup_some desired kern k v hnd' hv
    · rw [if_neg hs]
      have hn : alookup desired k = none := by
        cases hh : alookup desired k
        · rfl
        · rw [hh] at hs
          simp at hs
      rw [hn]
      by_cases hmem : k ∈ (sync_upsert desired kern).1.map Prod.fst
      · rw [if_pos hmem]
      · rw [if_neg hmem]
        exact alookup_eq_none_of_not_mem _ k hmem
  have hfinal := hpart1 kernel
  set final := (sync_data desired kernel).1 with hfin
  have hup2 : sync_upsert desired final = (final, []) := by
    apply sync_upsert_skip
    intro a b hab
    rw [hfinal a]
    exact alookup_of_mem_nodup desired a b hnd' hab
  have hentries : ∀ kv ∈ final, (alookup desired kv.1).isSome = true := by
    intro kv hkv
    rw [hfin] at hkv
    exact sync_remove_entries desired
      ((sync_upsert desired kernel).1.map Prod.fst) (sync_upsert desired kernel).1
      (fun kv2 hkv2 => Or.inl (List.mem_map_of_mem Prod.fst hkv2)) kv hkv
  have hrm2 : sync_remove desired (final.map Prod.fst) final = (final, []) := by
    apply sync_remove_skip
    intro key hkey
    obtain ⟨kv, hkv, hkveq⟩ := List.mem_map.mp hkey
    exact hkveq ▸ hentries kv hkv
  refine ⟨hfinal, ?_⟩
  show (sync_data desired final).2 = []
  simp only [sync_data, hup2, hrm2]
  rfl

/-- Witness for sync_projection_idempotent: a one-record registry for
ip 5 and a kernel table holding a stale entry for ip 9. -/
theorem sync_projection_idempotent_witness :
    (alookup (sync_data (projectRegistry [(5, svcIdle)]) [(9, 1)]).1 5
      = alookup (projectRegistry [(5, svcIdle)]) 5) ∧
    (sync_data (projectRegistry [(5, svcIdle)])
        (sync_data (projectRegistry [(5, svcIdle)]) [(9, 1)]).1).2 = [] :=
  ⟨(sync_projection_idempotent [(5, svcIdle)] [(9, 1)] (by decide)).1 5,
   (sync_projection_idempotent [(5, svcIdle)] [(9, 1)] (by decide)).2⟩

end ScaleToZero
